import Mathlib

/-!
Shallow embedding of the media-generation / chat front-end (TypeScript sources
under src/).  JavaScript strings are modelled as lists of characters
(`Str := List Char`); all string claims in this development concern ASCII
text, where JavaScript UTF-16 length and code-point length agree.

The repository carries several revisions of the service module.  The revision
embedded here for the generation client and the Veo workflow is the one the
component layer actually imports from: ChatBot.tsx imports `chatAssistant`,
which is exported only by the service revision in src/unnamed/part_003
(second document, the one defining `getValidApiKey`, per-poll progress
reporting and the still-image fallback).  The conversation store is embedded
from ChatBot.tsx (`saveChat`, threshold 35) and from the ThinkingChat
component in src/unnamed/part_008 (`saveConversation`, threshold 40).
-/

abbrev Str := List Char

/-- Coerce a Lean string literal to the character-list model. -/
def str (s : String) : Str := s.data

/-- Whitespace set used by JavaScript `String.prototype.trim` (ASCII part). -/
def isJsWhitespace (c : Char) : Bool :=
  c = ' ' || c = '\t' || c = '\n' || c = '\r' || c = '\x0b' || c = '\x0c'

/-- Model of JavaScript `s.trim()`: drop whitespace from both ends. -/
def jsTrim (s : Str) : Str :=
  ((s.dropWhile isJsWhitespace).reverse.dropWhile isJsWhitespace).reverse

/-- Model of JavaScript `s.split(sep)` for a single-character separator:
splits on every occurrence, keeping empty segments, and yields `[s]` when
the separator does not occur (`"".split(sep)` yields `[""]`). -/
def jsSplit (sep : Char) : Str → List Str
  | [] => [[]]
  | c :: rest =>
    if c = sep then [] :: jsSplit sep rest
    else
      match jsSplit sep rest with
      | [] => [[c]]
      | h :: t => (c :: h) :: t

/-- Model of JavaScript `hay.includes(needle)`. -/
def containsSub (needle : Str) : Str → Bool
  | [] => needle.isEmpty
  | c :: rest => needle.isPrefixOf (c :: rest) || containsSub needle rest

/-! ## Conversation data model (src/types.ts, src/unnamed/part_005 / part_006) -/

inductive Role where
  | user
  | model
deriving DecidableEq

structure ChatMessage where
  role : Role
  text : Str
  isThinking : Option Bool := none
deriving DecidableEq

structure Conversation where
  id : Str
  title : Str
  messages : List ChatMessage
  timestamp : Nat
deriving DecidableEq

/-! ## Conversation store adapter (ChatBot.tsx and src/unnamed/part_008)

Both components persist the whole collection:
JSON.stringify / JSON.parse round-trips the collection unchanged, so the
backing store is modelled as holding the collection itself.  The JavaScript
`Array.prototype.sort` with comparator `(a, b) => b.timestamp - a.timestamp`
is a stable descending sort; since a stable sort's output is uniquely
determined, it is embedded as a stable insertion sort. -/

/-- Stable insertion of a conversation into a timestamp-descending list:
the inserted element goes before the first strictly older element, after
all elements at least as recent (stability). -/
def insertByTimestamp (c : Conversation) : List Conversation → List Conversation
  | [] => [c]
  | d :: rest =>
    if d.timestamp ≤ c.timestamp then c :: d :: rest
    else d :: insertByTimestamp c rest

/-- Stable sort by timestamp, most recent first: the embedding of
`updated.sort((a, b) => b.timestamp - a.timestamp)`. -/
def sortByTimestampDesc : List Conversation → List Conversation
  | [] => []
  | c :: rest => insertByTimestamp c (sortByTimestampDesc rest)

/-- Title derivation of ChatBot.tsx `saveChat` (line 57):
`msgs[0]?.text.slice(0, 35) + (msgs[0]?.text.length > 35 ? '...' : '') || 'Conversation'`.
With no first message the JavaScript expression evaluates to the string
"undefined" (undefined + ''), which is truthy. -/
def chatTitle (msgs : List ChatMessage) : Str :=
  match msgs.head? with
  | none => str "undefined"
  | some m =>
    let t := m.text.take 35 ++ (if 35 < m.text.length then str "..." else [])
    if t.isEmpty then str "Conversation" else t

/-- Title derivation of part_008 `saveConversation` (line 56): same shape
with threshold 40 and default title "New Discussion". -/
def thinkTitle (msgs : List ChatMessage) : Str :=
  match msgs.head? with
  | none => str "undefined"
  | some m =>
    let t := m.text.take 40 ++ (if 40 < m.text.length then str "..." else [])
    if t.isEmpty then str "New Discussion" else t

/-- Replace the first conversation whose id matches, refreshing messages and
timestamp: the embedding of
`updated = [...prev]; updated[existingIdx] = { ...updated[existingIdx], messages: msgs, timestamp: Date.now() }`
where `existingIdx = prev.findIndex(c => c.id === id)` (writing through the
copy at the index of the first match is exactly replacing the first match). -/
def replaceFirstById (id : Str) (msgs : List ChatMessage) (now : Nat) :
    List Conversation → List Conversation
  | [] => []
  | c :: rest =>
    if c.id == id then { c with messages := msgs, timestamp := now } :: rest
    else c :: replaceFirstById id msgs now rest

/-- Upsert used by both store adapters: replace the first conversation whose
id matches (`existingIdx > -1`), else prepend a fresh conversation with the
derived title.  The title derivation is the only difference between the two
components, so it is a parameter. -/
def upsertConversation (mkTitle : List ChatMessage → Str) (id : Str)
    (msgs : List ChatMessage) (now : Nat) (prev : List Conversation) : List Conversation :=
  if prev.any (fun c => c.id == id) then replaceFirstById id msgs now prev
  else { id := id, title := mkTitle msgs, messages := msgs, timestamp := now } :: prev

/-- ChatBot.tsx `saveChat` (lines 44-70): upsert, then re-sort the whole
collection by timestamp descending and re-serialize it. -/
def saveChat (id : Str) (msgs : List ChatMessage) (now : Nat)
    (prev : List Conversation) : List Conversation :=
  sortByTimestampDesc (upsertConversation chatTitle id msgs now prev)

/-- part_008 `saveConversation` (lines 43-69): identical shape with the
40-character title derivation. -/
def saveConversation (id : Str) (msgs : List ChatMessage) (now : Nat)
    (prev : List Conversation) : List Conversation :=
  sortByTimestampDesc (upsertConversation thinkTitle id msgs now prev)

/-- Load effect of ChatBot.tsx (lines 17-27): read the serialized collection
(if any) and sort it most-recent-first.  JSON parse of what was serialized is
the identity on the collection. -/
def loadChats (saved : Option (List Conversation)) : List Conversation :=
  match saved with
  | none => []
  | some parsed => sortByTimestampDesc parsed

/-- Message-list update performed by ChatBot.tsx `handleSend` (lines 72-99):
append the user's message, then either the model's reply or a model-role
message carrying "Error: " + the thrown message. -/
def handleSendMessages (messages : List ChatMessage) (input : Str)
    (res : Except Str Str) : List ChatMessage :=
  let newMessages := messages ++ [{ role := Role.user, text := input }]
  match res with
  | Except.ok r => newMessages ++ [{ role := Role.model, text := r }]
  | Except.error m => newMessages ++ [{ role := Role.model, text := str "Error: " ++ m }]

/-- One role/content turn of the request body sent to the chat model. -/
structure TurnContent where
  role : Role
  text : Str
deriving DecidableEq

/-- Request contents built by `chatAssistant` (part_003, lines 247-261):
the ordered history projected to role/content shape with the new prompt
appended as the final user turn. -/
def chatAssistantContents (history : List ChatMessage) (prompt : Str) : List TurnContent :=
  history.map (fun m => { role := m.role, text := m.text }) ++
    [{ role := Role.user, text := prompt }]

/-! ## Credential resolver (part_003, lines 143-150) -/

/-- Embedding of `getValidApiKey`: rejects a missing key, the empty string,
the literal strings "undefined" and "null", and whitespace-only strings, by
throwing "API_KEY_NOT_FOUND"; otherwise returns the key. -/
def getValidApiKey (key : Option Str) : Except Str Str :=
  match key with
  | none => Except.error (str "API_KEY_NOT_FOUND")
  | some k =>
    if k = [] ∨ k = str "undefined" ∨ k = str "null" ∨ jsTrim k = [] then
      Except.error (str "API_KEY_NOT_FOUND")
    else Except.ok k

/-! ## Generation client data (response shapes of the external API) -/

structure InlineData where
  data : Str
deriving DecidableEq

structure ContentPart where
  inlineData : Option InlineData := none
  text : Option Str := none
deriving DecidableEq

structure Content where
  parts : Option (List ContentPart) := none
deriving DecidableEq

structure Candidate where
  content : Option Content := none
deriving DecidableEq

structure GenResponse where
  candidates : Option (List Candidate) := none
deriving DecidableEq

/-- The part list examined by the image operations:
`response.candidates?.[0]?.content?.parts || []`. -/
def responseParts (r : GenResponse) : List ContentPart :=
  (((r.candidates.bind (fun cs => cs.get? 0)).bind (fun c => c.content)).bind
    (fun c => c.parts)).getD []

/-- Scan of the content parts for the first inline-image payload, wrapped as
a data URL (`data:image/png;base64,` + data); `none` when no part carries
inline data. -/
def scanParts : List ContentPart → Option Str
  | [] => none
  | p :: rest =>
    match p.inlineData with
    | some d => some (str "data:image/png;base64," ++ d.data)
    | none => scanParts rest

/-- Payload extraction shared by `editImage` and `generateVideoVeo`:
`image.split(',')[1] || image` — the second comma-separated field if present
and non-empty, else the whole string. -/
def base64DataOf (image : Str) : Str :=
  match (jsSplit ',' image).get? 1 with
  | some t => if t = [] then image else t
  | none => image

/-- MIME extraction of `generateVideoVeo`:
`image.split(';')[0].split(':')[1] || 'image/png'`. -/
def mimeTypeOf (image : Str) : Str :=
  match (jsSplit ':' ((jsSplit ';' image).headD [])).get? 1 with
  | some t => if t = [] then str "image/png" else t
  | none => str "image/png"

/-- Rendering of the payload rule in the specification's words, for
comparison with `base64DataOf`: the substring of the input after the first
comma (everything past that comma), when a comma occurs at all. -/
def afterFirstComma : Str → Option Str
  | [] => none
  | c :: rest => if c = ',' then some rest else afterFirstComma rest

/-- Request parts built by `editImage` (part_003, lines 192-205): the source
image bytes (after data-URL envelope stripping) and the instruction text as
two parts of one message. -/
inductive ReqPart where
  | inline (data : Str) (mimeType : Str)
  | text (t : Str)
deriving DecidableEq

/-- The two-part request `editImage` sends. -/
def editImageRequestParts (base64Image prompt mimeType : Str) : List ReqPart :=
  [ReqPart.inline (base64DataOf base64Image) mimeType, ReqPart.text prompt]

/-! ## Long-running media workflow (part_003, lines 275-332)

The external service is scripted by a `VeoEnv`: the outcome of the one
submission call, the successive operation handles the status endpoint
returns, the binary fetch, local blob-URL creation, and the outcome of the
fallback image-synthesis request.  The run is a pure function of the script
producing an outcome and the ordered trace of observable events. -/

structure VideoRef where
  uri : Option Str := none
deriving DecidableEq

structure GeneratedVideo where
  video : Option VideoRef := none
deriving DecidableEq

structure VeoResponse where
  generatedVideos : Option (List GeneratedVideo) := none
deriving DecidableEq

structure VeoOperation where
  done : Bool
  response : Option VeoResponse := none
deriving DecidableEq

/-- Extraction `operation.response?.generatedVideos?.[0]?.video?.uri`. -/
def videoUri (op : VeoOperation) : Option Str :=
  (((op.response.bind (fun r => r.generatedVideos)).bind (fun vs => vs.get? 0)).bind
    (fun v => v.video)).bind (fun v => v.uri)

/-- A still-pending operation handle: done flag false, no payload yet. -/
def pendingOp : VeoOperation := { done := false }

/-- A completed operation handle whose first generated video carries the
given uri. -/
def doneOpWith (u : Str) : VeoOperation :=
  { done := true,
    response := some { generatedVideos := some [{ video := some { uri := some u } }] } }

/-- Observable events of one workflow run, in order. -/
inductive Ev where
  | progress (msg : Str)
  | submitCall (prompt imageBytes mimeType aspectRatio : Str)
  | sleep (ms : Nat)
  | pollCall
  | fetchCall (url : Str)
  | imageGenCall (prompt aspectRatio : Str)
  | selectKeyCall
deriving DecidableEq

/-- Outcome of an async workflow: a returned value, a thrown error message,
or divergence (the scripted poll responses ran out with the operation still
pending — in the source the loop would simply keep polling). -/
inductive Outcome (α : Type) where
  | returned (v : α)
  | threw (e : Str)
  | diverged
deriving DecidableEq

/-- Scripted service environment for one `generateVideoVeo` run. -/
structure VeoEnv where
  apiKey : Option Str
  submit : Except Str VeoOperation
  polls : List VeoOperation
  fetchFn : Str → Str
  mkBlobUrl : Str → Str
  imageSvc : Except Str GenResponse
  hasAistudio : Bool

/-- The polling loop (part_003, lines 304-308):
while the handle's done flag is false, wait 10000 ms, resubmit the handle to
the status endpoint, and report progress; the loop ends only when a handle
reports done.  The scripted responses are consumed in order; an exhausted
script models the loop still running (`none`). -/
def pollLoop (op : VeoOperation) (polls : List VeoOperation) :
    List Ev × Option VeoOperation :=
  if op.done then ([], some op)
  else
    match polls with
    | [] => ([], none)
    | p :: rest =>
      let next := pollLoop p rest
      (Ev.sleep 10000 :: Ev.pollCall ::
        Ev.progress (str "Motion rendering in progress...") :: next.1, next.2)

/-- Embedding of `generateImagePro` (part_003, lines 155-182): key check,
one generation request, scan for the first inline image; a thrown
"API_KEY_NOT_FOUND" (from the key check, before any request) is remapped to
an activation message by the catch block. -/
def generateImagePro (apiKey : Option Str) (svc : Except Str GenResponse)
    (prompt aspectRatio : Str) : Except Str (Option Str) × List Ev :=
  match getValidApiKey apiKey with
  | Except.error _ =>
    (Except.error (str "Activation Required: Please link your API Key."), [])
  | Except.ok _ =>
    match svc with
    | Except.error e =>
      (if containsSub (str "API_KEY_NOT_FOUND") e then
         Except.error (str "Activation Required: Please link your API Key.")
       else Except.error e,
       [Ev.imageGenCall prompt aspectRatio])
    | Except.ok resp =>
      (Except.ok (scanParts (responseParts resp)), [Ev.imageGenCall prompt aspectRatio])

/-- The try-block of `generateVideoVeo` (part_003, lines 281-318): key
check, data-URL decoding, submission, progress, polling loop, then fetch of
the result URI with the key appended as a query parameter and wrapping of
the binary as a local blob URL.  The resolution guard is the JS truthiness
test `if (downloadLink)` (line 311): a missing uri, and likewise the empty
string (falsy), throws "VIDEO_FAILED" instead of resolving. -/
def veoTryBody (env : VeoEnv) (prompt image aspectRatio : Str) :
    Outcome (Option Str) × List Ev :=
  match getValidApiKey env.apiKey with
  | Except.error e => (Outcome.threw e, [])
  | Except.ok apiKey =>
    let base64Data := base64DataOf image
    let mimeType := mimeTypeOf image
    let tr0 := [Ev.progress (str "Initializing cinematic engine...")]
    match env.submit with
    | Except.error e =>
      (Outcome.threw e, tr0 ++ [Ev.submitCall prompt base64Data mimeType aspectRatio])
    | Except.ok op0 =>
      let tr1 := tr0 ++ [Ev.submitCall prompt base64Data mimeType aspectRatio,
        Ev.progress (str "Generating motion sequences...")]
      match pollLoop op0 env.polls with
      | (ptr, none) => (Outcome.diverged, tr1 ++ ptr)
      | (ptr, some opF) =>
        match videoUri opF with
        | some downloadLink =>
          if downloadLink = [] then (Outcome.threw (str "VIDEO_FAILED"), tr1 ++ ptr)
          else
            let url := downloadLink ++ str "&key=" ++ apiKey
            (Outcome.returned (some (env.mkBlobUrl (env.fetchFn url))),
             tr1 ++ ptr ++
               [Ev.progress (str "Finalizing cinematic download..."), Ev.fetchCall url])
        | none => (Outcome.threw (str "VIDEO_FAILED"), tr1 ++ ptr)

/-- Embedding of `generateVideoVeo` (part_003, lines 275-332): the try-block
above, with the catch-block policy: an entity-not-found error re-opens key
selection and rethrows a session error; every other thrown error silently
falls back to one image-synthesis call with a rewritten cinematic
still-frame prompt, whose result is returned in place of the video. -/
def generateVideoVeo (env : VeoEnv) (prompt image aspectRatio : Str) :
    Outcome (Option Str) × List Ev :=
  match veoTryBody env prompt image aspectRatio with
  | (Outcome.returned v, tr) => (Outcome.returned v, tr)
  | (Outcome.diverged, tr) => (Outcome.diverged, tr)
  | (Outcome.threw e, tr) =>
    if containsSub (str "Requested entity was not found.") e then
      (Outcome.threw (str "Key session expired. Please re-select your project key."),
       tr ++ (if env.hasAistudio then [Ev.selectKeyCall] else []))
    else
      let fallbackPrompt :=
        str "Cinematic high-motion still frame: " ++ prompt ++ str ". Professional cinematography."
      let fb := generateImagePro env.apiKey env.imageSvc fallbackPrompt aspectRatio
      ((match fb.1 with
        | Except.ok v => Outcome.returned v
        | Except.error e2 => Outcome.threw e2),
       tr ++ [Ev.progress (str "Switching to Motion Frame fallback...")] ++ fb.2)

/-! ## Trace observations -/

def countPollCalls : List Ev → Nat
  | [] => 0
  | Ev.pollCall :: rest => countPollCalls rest + 1
  | _ :: rest => countPollCalls rest

def countImageGenCalls : List Ev → Nat
  | [] => 0
  | Ev.imageGenCall _ _ :: rest => countImageGenCalls rest + 1
  | _ :: rest => countImageGenCalls rest

/-- Helper: scans a trace remembering whether a progress report has occurred
since the last poll (or the start of the run). -/
def progressSinceLastPoll : List Ev → Bool → Bool
  | [], _ => true
  | Ev.progress _ :: rest, _ => progressSinceLastPoll rest true
  | Ev.pollCall :: rest, seen => seen && progressSinceLastPoll rest false
  | _ :: rest, seen => progressSinceLastPoll rest seen

/-- Every poll call in the trace is preceded by a progress report issued
after the previous poll call (or at the start of the run). -/
def progressBeforeEachPoll (tr : List Ev) : Bool :=
  progressSinceLastPoll tr false

/-- Every poll call in the trace is immediately preceded by a sleep. -/
def sleepImmediatelyBeforeEachPoll : List Ev → Bool
  | Ev.sleep _ :: Ev.pollCall :: rest => sleepImmediatelyBeforeEachPoll rest
  | Ev.pollCall :: _ => false
  | _ :: rest => sleepImmediatelyBeforeEachPoll rest
  | [] => true

/-- All sleeps in the trace wait the same fixed number of milliseconds. -/
def allSleepsAre (ms : Nat) : List Ev → Bool
  | [] => true
  | Ev.sleep m :: rest => m == ms && allSleepsAre ms rest
  | _ :: rest => allSleepsAre ms rest

/-! ## Helper lemmas: the store adapter -/

theorem insertByTimestamp_perm (c : Conversation) (l : List Conversation) :
    (insertByTimestamp c l).Perm (c :: l) := by
  induction l with
  | nil => simp [insertByTimestamp]
  | cons d rest ih =>
    by_cases h : d.timestamp ≤ c.timestamp
    · simp [insertByTimestamp, h]
    · simp only [insertByTimestamp, if_neg h]
      exact (List.Perm.cons d ih).trans (List.Perm.swap c d rest)

theorem sortByTimestampDesc_perm (l : List Conversation) :
    (sortByTimestampDesc l).Perm l := by
  induction l with
  | nil => simp [sortByTimestampDesc]
  | cons c rest ih =>
    exact (insertByTimestamp_perm c (sortByTimestampDesc rest)).trans (List.Perm.cons c ih)

theorem replaceFirstById_map_id (id : Str) (msgs : List ChatMessage) (now : Nat)
    (l : List Conversation) :
    (replaceFirstById id msgs now l).map (fun c => c.id) = l.map (fun c => c.id) := by
  induction l with
  | nil => rfl
  | cons c rest ih =>
    by_cases h : c.id == id
    · simp [replaceFirstById, h]
    · simp [replaceFirstById, h, ih]

theorem replaceFirstById_props (id : Str) (msgs : List ChatMessage) (now : Nat)
    (l : List Conversation) (hnd : (l.map (fun c => c.id)).Nodup)
    (hex : ∃ c ∈ l, c.id = id) :
    List.countP (fun c => c.id == id) (replaceFirstById id msgs now l) = 1 ∧
      ∀ c ∈ replaceFirstById id msgs now l, c.id = id →
        c.messages = msgs ∧ c.timestamp = now := by
  induction l with
  | nil => rcases hex with ⟨c, hc, _⟩; exact absurd hc (List.not_mem_nil c)
  | cons c₀ rest ih =>
    simp only [List.map_cons, List.nodup_cons] at hnd
    by_cases h : c₀.id = id
    · have hb : (c₀.id == id) = true := by simp [h]
      have hz : List.countP (fun c => c.id == id) rest = 0 := by
        rw [List.countP_eq_zero]
        intro a ha hcon
        exact hnd.1 (h ▸ (by simpa using hcon) ▸ List.mem_map_of_mem (fun c => c.id) ha)
      constructor
      · simp [replaceFirstById, hb, List.countP_cons, hz]
      · intro c hc hcid
        simp only [replaceFirstById, hb, if_true, List.mem_cons] at hc
        rcases hc with rfl | hc
        · exact ⟨rfl, rfl⟩
        · exfalso
          have : (fun c => c.id == id) c = true := by simp [hcid]
          have := List.countP_eq_zero.mp hz c hc
          simp [hcid] at this
    · have hb : (c₀.id == id) = false := by simp [h]
      have hex' : ∃ c ∈ rest, c.id = id := by
        rcases hex with ⟨c, hc, hcid⟩
        rcases List.mem_cons.mp hc with rfl | hc
        · exact absurd hcid h
        · exact ⟨c, hc, hcid⟩
      rcases ih hnd.2 hex' with ⟨ih1, ih2⟩
      constructor
      · simp [replaceFirstById, hb, List.countP_cons, ih1]
      · intro c hc hcid
        simp only [replaceFirstById, hb, Bool.false_eq_true, if_false, List.mem_cons] at hc
        rcases hc with rfl | hc
        · exact absurd hcid h
        · exact ih2 c hc hcid

theorem upsertConversation_props (mkTitle : List ChatMessage → Str) (id : Str)
    (msgs : List ChatMessage) (now : Nat) (prev : List Conversation)
    (hnd : (prev.map (fun c => c.id)).Nodup) :
    List.countP (fun c => c.id == id) (upsertConversation mkTitle id msgs now prev) = 1 ∧
      (∀ c ∈ upsertConversation mkTitle id msgs now prev, c.id = id →
        c.messages = msgs ∧ c.timestamp = now) ∧
      ((upsertConversation mkTitle id msgs now prev).map (fun c => c.id)).Nodup := by
  by_cases h : prev.any (fun c => c.id == id)
  · have hex : ∃ c ∈ prev, c.id = id := by
      rcases List.any_eq_true.mp h with ⟨c, hc, hb⟩
      exact ⟨c, hc, by simpa using hb⟩
    rcases replaceFirstById_props id msgs now prev hnd hex with ⟨h1, h2⟩
    refine ⟨?_, ?_, ?_⟩
    · simpa [upsertConversation, h] using h1
    · intro c hc; simp only [upsertConversation, h, if_true] at hc; exact h2 c hc
    · simpa [upsertConversation, h, replaceFirstById_map_id] using hnd
  · have hno : ∀ c ∈ prev, c.id ≠ id := by
      intro c hc hcid
      exact h (List.any_eq_true.mpr ⟨c, hc, by simp [hcid]⟩)
    refine ⟨?_, ?_, ?_⟩
    · have hz : List.countP (fun c => c.id == id) prev = 0 := by
        rw [List.countP_eq_zero]
        intro a ha hcon
        exact hno a ha (by simpa using hcon)
      simp [upsertConversation, h, List.countP_cons, hz]
    · intro c hc hcid
      simp only [upsertConversation, h, Bool.false_eq_true, if_false, List.mem_cons] at hc
      rcases hc with rfl | hc
      · exact ⟨rfl, rfl⟩
      · exact absurd hcid (hno c hc)
    · simp only [upsertConversation, h, Bool.false_eq_true, if_false, List.map_cons,
        List.nodup_cons]
      exact ⟨fun hmem => by
        rcases List.mem_map.mp hmem with ⟨c, hc, hcid⟩
        exact hno c hc hcid, hnd⟩

theorem saveWith_props (mkTitle : List ChatMessage → Str) (id : Str)
    (msgs : List ChatMessage) (now : Nat) (prev : List Conversation)
    (hnd : (prev.map (fun c => c.id)).Nodup) :
    List.countP (fun c => c.id == id)
        (sortByTimestampDesc (upsertConversation mkTitle id msgs now prev)) = 1 ∧
      (∀ c ∈ sortByTimestampDesc (upsertConversation mkTitle id msgs now prev), c.id = id →
        c.messages = msgs ∧ c.timestamp = now) ∧
      ((sortByTimestampDesc (upsertConversation mkTitle id msgs now prev)).map
        (fun c => c.id)).Nodup := by
  rcases upsertConversation_props mkTitle id msgs now prev hnd with ⟨h1, h2, h3⟩
  have hperm := sortByTimestampDesc_perm (upsertConversation mkTitle id msgs now prev)
  refine ⟨?_, ?_, ?_⟩
  · rw [hperm.countP_eq]; exact h1
  · intro c hc; exact h2 c (hperm.mem_iff.mp hc)
  · exact ((hperm.map (fun c => c.id)).nodup_iff).mpr h3

theorem saveWith_exists (mkTitle : List ChatMessage → Str) (id : Str)
    (msgs : List ChatMessage) (now : Nat) (prev : List Conversation)
    (hnd : (prev.map (fun c => c.id)).Nodup) :
    ∃ c ∈ sortByTimestampDesc (upsertConversation mkTitle id msgs now prev),
      c.id = id ∧ c.messages = msgs ∧ c.timestamp = now := by
  rcases saveWith_props mkTitle id msgs now prev hnd with ⟨h1, h2, _⟩
  have hpos : 0 < List.countP (fun c => c.id == id)
      (sortByTimestampDesc (upsertConversation mkTitle id msgs now prev)) := by
    omega
  rcases List.countP_pos_iff.mp hpos with ⟨c, hc, hb⟩
  have hcid : c.id = id := by simpa using hb
  exact ⟨c, hc, hcid, h2 c hc hcid⟩

theorem saveWith_fresh_mem (mkTitle : List ChatMessage → Str) (id : Str)
    (msgs : List ChatMessage) (now : Nat) (prev : List Conversation)
    (hfresh : ∀ c ∈ prev, c.id ≠ id) :
    ({ id := id, title := mkTitle msgs, messages := msgs, timestamp := now } : Conversation) ∈
      sortByTimestampDesc (upsertConversation mkTitle id msgs now prev) := by
  have h : prev.any (fun c => c.id == id) = false := by
    by_contra hcon
    rcases List.any_eq_true.mp (Bool.of_not_eq_false hcon) with ⟨c, hc, hb⟩
    exact hfresh c hc (by simpa using hb)
  have hmem : ({ id := id, title := mkTitle msgs, messages := msgs, timestamp := now } :
      Conversation) ∈ upsertConversation mkTitle id msgs now prev := by
    simp [upsertConversation, h]
  exact ((sortByTimestampDesc_perm _).mem_iff).mpr hmem

/-! ## Helper lemmas: title derivation -/

theorem thinkTitle_of_short (t : Str) (rest : List ChatMessage) (hne : t ≠ [])
    (hlen : t.length ≤ 40) :
    thinkTitle ({ role := Role.user, text := t } :: rest) = t := by
  simp [thinkTitle, List.take_of_length_le hlen, Nat.not_lt.mpr hlen, hne]

theorem thinkTitle_of_long (t : Str) (rest : List ChatMessage) (hlen : 40 < t.length) :
    thinkTitle ({ role := Role.user, text := t } :: rest) = t.take 40 ++ str "..." := by
  have hdots : str "..." ≠ [] := by decide
  have hne : t.take 40 ++ str "..." ≠ [] := fun hc => hdots (List.append_eq_nil.mp hc).2
  simp [thinkTitle, hlen, hne]

theorem chatTitle_of_short (t : Str) (rest : List ChatMessage) (hne : t ≠ [])
    (hlen : t.length ≤ 35) :
    chatTitle ({ role := Role.user, text := t } :: rest) = t := by
  simp [chatTitle, List.take_of_length_le hlen, Nat.not_lt.mpr hlen, hne]

theorem chatTitle_of_long (t : Str) (rest : List ChatMessage) (hlen : 35 < t.length) :
    chatTitle ({ role := Role.user, text := t } :: rest) = t.take 35 ++ str "..." := by
  have hdots : str "..." ≠ [] := by decide
  have hne : t.take 35 ++ str "..." ≠ [] := fun hc => hdots (List.append_eq_nil.mp hc).2
  simp [chatTitle, hlen, hne]

/-! ## Claims about the conversation store -/

/-- C4: calling `save(id, msgsA)` then `save(id, msgsB)` on a collection with
distinct conversation ids leaves exactly one conversation with that id; its
message list equals `msgsB` and its timestamp is the second call's. -/
theorem claim_C4_upsert (id : Str) (msgsA msgsB : List ChatMessage) (t1 t2 : Nat)
    (prev : List Conversation) (hnd : (prev.map (fun c => c.id)).Nodup) :
    List.countP (fun c => c.id == id) (saveChat id msgsB t2 (saveChat id msgsA t1 prev)) = 1 ∧
      ∀ c ∈ saveChat id msgsB t2 (saveChat id msgsA t1 prev), c.id = id →
        c.messages = msgsB ∧ c.timestamp = t2 := by
  have h1 := saveWith_props chatTitle id msgsA t1 prev hnd
  have h2 := saveWith_props chatTitle id msgsB t2 (saveChat id msgsA t1 prev) h1.2.2
  exact ⟨h2.1, h2.2.1⟩

theorem claim_C4_witness :
    List.countP (fun c => c.id == str "a")
        (saveChat (str "a") [{ role := Role.user, text := str "b" }] 1
          (saveChat (str "a") [] 0 [])) = 1 ∧
      ∀ c ∈ saveChat (str "a") [{ role := Role.user, text := str "b" }] 1
          (saveChat (str "a") [] 0 []),
        c.id = str "a" →
          c.messages = [{ role := Role.user, text := str "b" }] ∧ c.timestamp = 1 :=
  claim_C4_upsert (str "a") [] [{ role := Role.user, text := str "b" }] 0 1 [] (by decide)

/-- C5: a conversation stored with messages `[m1, m2, m3]` is returned by
`load` with those messages in the same order, and any subsequent `save` that
appends to the list leaves the earlier messages' relative order unchanged
(the new list is the old list extended on the right). -/
theorem claim_C5_order_preserved (id title : Str) (m1 m2 m3 : ChatMessage) (ts : Nat)
    (stored : List Conversation)
    (hmem : ({ id := id, title := title, messages := [m1, m2, m3], timestamp := ts } :
      Conversation) ∈ stored)
    (hnd : (stored.map (fun c => c.id)).Nodup) :
    (∃ c ∈ loadChats (some stored), c.id = id ∧ c.messages = [m1, m2, m3]) ∧
      ∀ extra t c, c ∈ saveChat id ([m1, m2, m3] ++ extra) t (loadChats (some stored)) →
        c.id = id → c.messages = [m1, m2, m3] ++ extra := by
  constructor
  · exact ⟨_, ((sortByTimestampDesc_perm stored).mem_iff).mpr hmem, rfl, rfl⟩
  · intro extra t c hc hcid
    have hnd' : ((loadChats (some stored)).map (fun c => c.id)).Nodup :=
      (((sortByTimestampDesc_perm stored).map (fun c => c.id)).nodup_iff).mpr hnd
    exact ((saveWith_props chatTitle id ([m1, m2, m3] ++ extra) t
      (loadChats (some stored)) hnd').2.1 c hc hcid).1

theorem claim_C5_witness :
    (∃ c ∈ loadChats (some [(⟨str "i", str "t",
        [⟨Role.user, str "m1", none⟩, ⟨Role.model, str "m2", none⟩,
          ⟨Role.user, str "m3", none⟩], 5⟩ : Conversation)]),
      c.id = str "i" ∧ c.messages = [⟨Role.user, str "m1", none⟩,
        ⟨Role.model, str "m2", none⟩, ⟨Role.user, str "m3", none⟩]) ∧
      ∀ extra t c, c ∈ saveChat (str "i")
          ([⟨Role.user, str "m1", none⟩, ⟨Role.model, str "m2", none⟩,
            ⟨Role.user, str "m3", none⟩] ++ extra) t
          (loadChats (some [(⟨str "i", str "t",
            [⟨Role.user, str "m1", none⟩, ⟨Role.model, str "m2", none⟩,
              ⟨Role.user, str "m3", none⟩], 5⟩ : Conversation)])) →
        c.id = str "i" → c.messages = [⟨Role.user, str "m1", none⟩,
          ⟨Role.model, str "m2", none⟩, ⟨Role.user, str "m3", none⟩] ++ extra :=
  claim_C5_order_preserved (str "i") (str "t") _ _ _ 5 _ (by decide) (by decide)

/-- C9: when the chat request throws with message m, the turn is still
persisted: a model-role message whose text is "Error: " ++ m is appended
right after the user's message, the conversation is saved with that list,
and the error text is part of the request contents replayed on a later turn. -/
theorem claim_C9_error_persisted (prev : List Conversation) (msgs : List ChatMessage)
    (input m nextPrompt id : Str) (now : Nat)
    (hnd : (prev.map (fun c => c.id)).Nodup) :
    handleSendMessages msgs input (Except.error m) =
        msgs ++ [{ role := Role.user, text := input },
          { role := Role.model, text := str "Error: " ++ m }] ∧
      (∃ c ∈ saveChat id (handleSendMessages msgs input (Except.error m)) now prev,
        c.id = id ∧ c.messages = msgs ++ [{ role := Role.user, text := input },
          { role := Role.model, text := str "Error: " ++ m }]) ∧
      ({ role := Role.model, text := str "Error: " ++ m } : TurnContent) ∈
        chatAssistantContents (handleSendMessages msgs input (Except.error m)) nextPrompt := by
  have heq : handleSendMessages msgs input (Except.error m) =
      msgs ++ [{ role := Role.user, text := input },
        { role := Role.model, text := str "Error: " ++ m }] := by
    simp [handleSendMessages]
  refine ⟨heq, ?_, ?_⟩
  · rcases saveWith_exists chatTitle id (handleSendMessages msgs input (Except.error m))
      now prev hnd with ⟨c, hc, hcid, hmsgs, _⟩
    exact ⟨c, hc, hcid, by rw [hmsgs, heq]⟩
  · simp [chatAssistantContents, heq]

theorem claim_C9_witness :
    handleSendMessages [] (str "hi") (Except.error (str "boom")) =
        [] ++ [{ role := Role.user, text := str "hi" },
          { role := Role.model, text := str "Error: " ++ str "boom" }] ∧
      (∃ c ∈ saveChat (str "s") (handleSendMessages [] (str "hi")
          (Except.error (str "boom"))) 3 [],
        c.id = str "s" ∧ c.messages = [] ++ [{ role := Role.user, text := str "hi" },
          { role := Role.model, text := str "Error: " ++ str "boom" }]) ∧
      ({ role := Role.model, text := str "Error: " ++ str "boom" } : TurnContent) ∈
        chatAssistantContents (handleSendMessages [] (str "hi")
          (Except.error (str "boom"))) (str "next") :=
  claim_C9_error_persisted [] [] (str "hi") (str "boom") (str "next") (str "s") 3 (by decide)

/-- C3 counterexample: ChatBot.tsx truncates the title at 35 characters, not
40.  For a first message of 38 characters (length ≤ 40), the stored title is
the first 35 characters followed by "...", not the text verbatim as the
claim requires. -/
theorem claim_C3_counterexample :
    (str "aaaaaaaaaaaaaaaaaaaaaaaaaaaaaaaaaaaaaa").length ≤ 40 ∧
      (saveChat (str "c1")
          [{ role := Role.user, text := str "aaaaaaaaaaaaaaaaaaaaaaaaaaaaaaaaaaaaaa" }] 0
          []).map (fun c => c.title)
        = [str "aaaaaaaaaaaaaaaaaaaaaaaaaaaaaaaaaaa" ++ str "..."] ∧
      str "aaaaaaaaaaaaaaaaaaaaaaaaaaaaaaaaaaa" ++ str "..." ≠
        str "aaaaaaaaaaaaaaaaaaaaaaaaaaaaaaaaaaaaaa" := by decide

/-- C3 amended: for a non-empty first-message text, `saveConversation`
(part_008) stores the text verbatim when its length is at most 40 and the
first 40 characters followed by "..." otherwise; `saveChat` (ChatBot.tsx)
behaves the same way with threshold 35 in place of 40. -/
theorem claim_C3_title_derivation_amended (id t : Str) (rest : List ChatMessage)
    (now : Nat) (prev : List Conversation)
    (hfresh : ∀ c ∈ prev, c.id ≠ id) (hne : t ≠ []) :
    (∃ c ∈ saveConversation id ({ role := Role.user, text := t } :: rest) now prev,
      c.id = id ∧ c.title = if t.length ≤ 40 then t else t.take 40 ++ str "...") ∧
    (∃ c ∈ saveChat id ({ role := Role.user, text := t } :: rest) now prev,
      c.id = id ∧ c.title = if t.length ≤ 35 then t else t.take 35 ++ str "...") := by
  constructor
  · refine ⟨_, saveWith_fresh_mem thinkTitle id _ now prev hfresh, rfl, ?_⟩
    by_cases h : t.length ≤ 40
    · rw [if_pos h]; exact thinkTitle_of_short t rest hne h
    · rw [if_neg h]; exact thinkTitle_of_long t rest (Nat.lt_of_not_le h)
  · refine ⟨_, saveWith_fresh_mem chatTitle id _ now prev hfresh, rfl, ?_⟩
    by_cases h : t.length ≤ 35
    · rw [if_pos h]; exact chatTitle_of_short t rest hne h
    · rw [if_neg h]; exact chatTitle_of_long t rest (Nat.lt_of_not_le h)

theorem claim_C3_witness :
    (∃ c ∈ saveConversation (str "k") [{ role := Role.user, text := str "hello" }] 0 [],
      c.id = str "k" ∧ c.title = if (str "hello").length ≤ 40 then str "hello"
        else (str "hello").take 40 ++ str "...") ∧
    (∃ c ∈ saveChat (str "k") [{ role := Role.user, text := str "hello" }] 0 [],
      c.id = str "k" ∧ c.title = if (str "hello").length ≤ 35 then str "hello"
        else (str "hello").take 35 ++ str "...") :=
  claim_C3_title_derivation_amended (str "k") (str "hello") [] 0 [] (by decide) (by decide)

/-! ## Helper lemmas: strings -/

theorem forall_mem_dropWhile_iff (p : Char → Bool) (l : Str) :
    (∀ x ∈ l.dropWhile p, p x = true) ↔ ∀ x ∈ l, p x = true := by
  induction l with
  | nil => simp
  | cons c rest ih =>
    by_cases h : p c
    · simp [List.dropWhile_cons, h, ih, List.forall_mem_cons]
    · simp [List.dropWhile_cons, h]

theorem jsTrim_eq_nil_iff (s : Str) : jsTrim s = [] ↔ s.all isJsWhitespace = true := by
  simp only [jsTrim, List.reverse_eq_nil_iff, List.dropWhile_eq_nil_iff, List.mem_reverse]
  rw [forall_mem_dropWhile_iff]
  simp [List.all_eq_true]

theorem getValidApiKey_some (s : Str) :
    getValidApiKey (some s) =
      if s = str "undefined" ∨ s = str "null" ∨ s.all isJsWhitespace = true then
        Except.error (str "API_KEY_NOT_FOUND")
      else Except.ok s := by
  have hc : (s = [] ∨ s = str "undefined" ∨ s = str "null" ∨ jsTrim s = []) ↔
      (s = str "undefined" ∨ s = str "null" ∨ s.all isJsWhitespace = true) := by
    rw [jsTrim_eq_nil_iff]
    constructor
    · rintro (rfl | h | h | h)
      · exact Or.inr (Or.inr rfl)
      · exact Or.inl h
      · exact Or.inr (Or.inl h)
      · exact Or.inr (Or.inr h)
    · rintro (h | h | h)
      · exact Or.inr (Or.inl h)
      · exact Or.inr (Or.inr (Or.inl h))
      · exact Or.inr (Or.inr (Or.inr h))
  simp only [getValidApiKey]
  rw [if_congr hc rfl rfl]

theorem jsSplit_no_sep (sep : Char) (s : Str) (h : sep ∉ s) : jsSplit sep s = [s] := by
  induction s with
  | nil => rfl
  | cons c rest ih =>
    have hc : ¬c = sep := fun hc => h (hc ▸ List.mem_cons_self c rest)
    have hr : sep ∉ rest := fun hr => h (List.mem_cons_of_mem c hr)
    simp [jsSplit, hc, ih hr]

theorem jsSplit_append_cons (sep : Char) (pre pay : Str) (hpre : sep ∉ pre) :
    jsSplit sep (pre ++ sep :: pay) = pre :: jsSplit sep pay := by
  induction pre with
  | nil => simp [jsSplit]
  | cons c pre' ih =>
    have hc : ¬c = sep := fun hc => hpre (hc ▸ List.mem_cons_self c pre')
    have hp : sep ∉ pre' := fun hp => hpre (List.mem_cons_of_mem c hp)
    simp [jsSplit, hc, ih hp]

theorem mem_of_mem_jsSplit_head (sep : Char) (s : Str) :
    ∀ x ∈ (jsSplit sep s).headD [], x ∈ s := by
  induction s with
  | nil => simp [jsSplit]
  | cons c rest ih =>
    by_cases h : c = sep
    · simp [jsSplit, h]
    · simp only [jsSplit, if_neg h]
      cases hr : jsSplit sep rest with
      | nil => intro x hx; simp at hx; simp [hx]
      | cons hd tl =>
        intro x hx
        simp only [List.headD_cons] at hx
        rcases List.mem_cons.mp hx with rfl | hx
        · exact List.mem_cons_self x rest
        · exact List.mem_cons_of_mem c (ih x (by rw [hr]; exact hx))

theorem scanParts_eq_none (parts : List ContentPart)
    (h : ∀ p ∈ parts, p.inlineData = none) : scanParts parts = none := by
  induction parts with
  | nil => rfl
  | cons p rest ih =>
    have hp := h p (List.mem_cons_self p rest)
    simp only [scanParts, hp]
    exact ih fun q hq => h q (List.mem_cons_of_mem p hq)

/-! ## Claims about the credential resolver and the generation client -/

/-- C6: the credential check reports the key absent (throws the typed
"API_KEY_NOT_FOUND" failure) exactly for the strings "undefined", "null" and
the strings consisting solely of whitespace (which include the empty
string); every other string is accepted and returned as the credential. -/
theorem claim_C6_credential_validity (s : Str) :
    (getValidApiKey (some s) = Except.error (str "API_KEY_NOT_FOUND") ↔
      (s = str "undefined" ∨ s = str "null" ∨ s.all isJsWhitespace = true)) ∧
    ((s ≠ str "undefined" ∧ s ≠ str "null" ∧ s.all isJsWhitespace = false) →
      getValidApiKey (some s) = Except.ok s) := by
  constructor
  · rw [getValidApiKey_some]
    by_cases h : s = str "undefined" ∨ s = str "null" ∨ s.all isJsWhitespace = true
    · rw [if_pos h]; exact ⟨fun _ => h, fun _ => rfl⟩
    · rw [if_neg h]
      exact ⟨fun hc => Except.noConfusion hc, fun hc => absurd hc h⟩
  · rintro ⟨h1, h2, h3⟩
    rw [getValidApiKey_some, if_neg]
    rintro (h | h | h)
    · exact h1 h
    · exact h2 h
    · rw [h3] at h; exact Bool.false_ne_true h

theorem claim_C6_witness :
    getValidApiKey (some (str "  ")) = Except.error (str "API_KEY_NOT_FOUND") ∧
      getValidApiKey (some (str "AIza")) = Except.ok (str "AIza") :=
  ⟨(claim_C6_credential_validity (str "  ")).1.mpr (by decide),
   (claim_C6_credential_validity (str "AIza")).2 (by decide)⟩

/-- C7: a successful image-synthesis response with no inline-image content
part makes `generateImagePro` return the empty result `none` without
throwing; the empty result is distinct from every thrown error. -/
theorem claim_C7_empty_result (apiKey : Option Str) (resp : GenResponse)
    (prompt aspect : Str)
    (hkey : ∃ k, getValidApiKey apiKey = Except.ok k)
    (hparts : ∀ p ∈ responseParts resp, p.inlineData = none) :
    generateImagePro apiKey (Except.ok resp) prompt aspect =
        (Except.ok none, [Ev.imageGenCall prompt aspect]) ∧
      ∀ e, (Except.ok none : Except Str (Option Str)) ≠ Except.error e := by
  rcases hkey with ⟨k, hk⟩
  refine ⟨?_, fun e h => Except.noConfusion h⟩
  simp [generateImagePro, hk, scanParts_eq_none _ hparts]

theorem claim_C7_witness :
    generateImagePro (some (str "k")) (Except.ok { candidates := none })
        (str "p") (str "1:1") =
        (Except.ok none, [Ev.imageGenCall (str "p") (str "1:1")]) ∧
      ∀ e, (Except.ok none : Except Str (Option Str)) ≠ Except.error e :=
  claim_C7_empty_result (some (str "k")) { candidates := none } (str "p") (str "1:1")
    ⟨str "k", by rfl⟩ (by decide)

/-- C10 counterexample: for the input "a,b,c" the code forwards
`split(',')[1]`, which is "b" — the field between the first and second
commas — whereas the substring after the first comma is "b,c".  The claim's
payload rule is therefore false on inputs with more than one comma. -/
theorem claim_C10_counterexample :
    base64DataOf (str "a,b,c") = str "b" ∧
      afterFirstComma (str "a,b,c") = some (str "b,c") ∧
      base64DataOf (str "a,b,c") ≠ str "b,c" := by decide

/-- C10 amended: the payload `editImage` and `generateVideoVeo` send is the
second comma-separated field of the input when that field is non-empty (for
a well-formed data URL with exactly one comma this is the substring after
that comma), and the input itself otherwise; in particular a bare base64
string with no comma is forwarded unchanged, and the declared MIME type
defaults to image/png when the input carries no colon-delimited segment. -/
theorem claim_C10_payload_amended :
    (∀ s : Str, ',' ∉ s → base64DataOf s = s) ∧
    (∀ pre pay : Str, ',' ∉ pre → ',' ∉ pay → pay ≠ [] →
      base64DataOf (pre ++ ',' :: pay) = pay) ∧
    (∀ pre : Str, ',' ∉ pre → base64DataOf (pre ++ [',']) = pre ++ [',']) ∧
    (∀ s : Str, ':' ∉ s → mimeTypeOf s = str "image/png") ∧
    (∀ img p mt : Str, editImageRequestParts img p mt =
      [ReqPart.inline (base64DataOf img) mt, ReqPart.text p]) := by
  refine ⟨?_, ?_, ?_, ?_, fun img p mt => rfl⟩
  · intro s h
    simp [base64DataOf, jsSplit_no_sep ',' s h]
  · intro pre pay hpre hpay hne
    have hsplit : jsSplit ',' (pre ++ ',' :: pay) = pre :: [pay] := by
      rw [jsSplit_append_cons ',' pre pay hpre, jsSplit_no_sep ',' pay hpay]
    simp [base64DataOf, hsplit, hne]
  · intro pre hpre
    have hsplit : jsSplit ',' (pre ++ [',']) = pre :: [[]] := by
      have : pre ++ [','] = pre ++ ',' :: ([] : Str) := rfl
      rw [this, jsSplit_append_cons ',' pre [] hpre]
      rfl
    simp [base64DataOf, hsplit]
  · intro s h
    have hseg : ':' ∉ (jsSplit ';' s).headD [] :=
      fun hm => h (mem_of_mem_jsSplit_head ';' s ':' hm)
    simp only [mimeTypeOf]
    rw [jsSplit_no_sep ':' _ hseg]
    rfl

theorem claim_C10_witness :
    base64DataOf (str "QUJD") = str "QUJD" ∧
      base64DataOf (str "data:image/png;base64" ++ ',' :: str "QUJD") = str "QUJD" ∧
      mimeTypeOf (str "QUJD") = str "image/png" :=
  ⟨claim_C10_payload_amended.1 (str "QUJD") (by decide),
   claim_C10_payload_amended.2.1 (str "data:image/png;base64") (str "QUJD")
     (by decide) (by decide) (by decide),
   claim_C10_payload_amended.2.2.2.1 (str "QUJD") (by decide)⟩

/-! ## Helper lemmas: the polling loop -/

theorem pollLoop_done (op : VeoOperation) (polls : List VeoOperation)
    (h : op.done = true) : pollLoop op polls = ([], some op) := by
  cases polls <;> simp [pollLoop, h]

theorem pollLoop_pending_cons (op p : VeoOperation) (rest : List VeoOperation)
    (h : op.done = false) :
    pollLoop op (p :: rest) =
      (Ev.sleep 10000 :: Ev.pollCall ::
        Ev.progress (str "Motion rendering in progress...") :: (pollLoop p rest).1,
       (pollLoop p rest).2) := by
  simp [pollLoop, h]

theorem pollLoop_isSome (op : VeoOperation) (polls : List VeoOperation) :
    (pollLoop op polls).2.isSome = (op.done || polls.any (fun p => p.done)) := by
  induction polls generalizing op with
  | nil => by_cases h : op.done <;> simp [pollLoop, h]
  | cons p rest ih =>
    by_cases h : op.done
    · simp [pollLoop, h]
    · simp [pollLoop, h, ih p]

theorem pollLoop_count (op : VeoOperation) (polls : List VeoOperation) :
    countPollCalls (pollLoop op polls).1 =
      min (List.findIdx (fun p => p.done) (op :: polls)) polls.length := by
  induction polls generalizing op with
  | nil => by_cases h : op.done <;> simp [pollLoop, h, countPollCalls, List.findIdx_cons]
  | cons p rest ih =>
    by_cases h : op.done
    · simp [pollLoop, h, countPollCalls, List.findIdx_cons]
    · have hstep : countPollCalls (pollLoop op (p :: rest)).1 =
          countPollCalls (pollLoop p rest).1 + 1 := by
        simp [pollLoop, h, countPollCalls]
      rw [hstep, ih p]
      have hidx : List.findIdx (fun p => p.done) (op :: p :: rest) =
          List.findIdx (fun p => p.done) (p :: rest) + 1 := by
        simp [List.findIdx_cons, h]
      rw [hidx, List.length_cons]
      omega

theorem pollLoop_sleeps (op : VeoOperation) (polls : List VeoOperation) :
    allSleepsAre 10000 (pollLoop op polls).1 = true := by
  induction polls generalizing op with
  | nil => by_cases h : op.done <;> simp [pollLoop, h, allSleepsAre]
  | cons p rest ih =>
    by_cases h : op.done
    · simp [pollLoop, h, allSleepsAre]
    · simp [pollLoop, h, allSleepsAre, ih p]

theorem pollLoop_sleep_before_poll (op : VeoOperation) (polls : List VeoOperation) :
    sleepImmediatelyBeforeEachPoll (pollLoop op polls).1 = true := by
  induction polls generalizing op with
  | nil => by_cases h : op.done <;> simp [pollLoop, h, sleepImmediatelyBeforeEachPoll]
  | cons p rest ih =>
    by_cases h : op.done
    · simp [pollLoop, h, sleepImmediatelyBeforeEachPoll]
    · simp [pollLoop, h, sleepImmediatelyBeforeEachPoll, ih p]

theorem pollLoop_replicate (k : Nat) :
    countPollCalls (pollLoop pendingOp (List.replicate k pendingOp)).1 = k ∧
      (pollLoop pendingOp (List.replicate k pendingOp)).2 = none := by
  induction k with
  | zero => exact ⟨rfl, rfl⟩
  | succ k ih =>
    rw [List.replicate_succ, pollLoop_pending_cons pendingOp pendingOp _ rfl]
    refine ⟨?_, ih.2⟩
    simp [countPollCalls, ih.1]

/-! ## Claims about the long-running media workflow -/

/-- C8: the polling loop issues no poll once the handle is done and issues
another poll exactly when the handle is pending and a scripted response
remains; it terminates exactly when some handle in the sequence reports
done; the number of polls is the position of the first done handle; every
wait is a fixed 10000 ms interval (within the 8-10 second range) and
immediately precedes its poll; and no iteration bound exists: for every n
the all-pending script of length n + 1 drives more than n polls without
terminating. -/
theorem claim_C8_polling_loop :
    (∀ (op : VeoOperation) (polls : List VeoOperation),
      op.done = true → pollLoop op polls = ([], some op)) ∧
    (∀ (op p : VeoOperation) (rest : List VeoOperation), op.done = false →
      pollLoop op (p :: rest) =
        (Ev.sleep 10000 :: Ev.pollCall ::
          Ev.progress (str "Motion rendering in progress...") :: (pollLoop p rest).1,
         (pollLoop p rest).2)) ∧
    (∀ (op : VeoOperation) (polls : List VeoOperation),
      (pollLoop op polls).2.isSome = (op.done || polls.any (fun p => p.done))) ∧
    (∀ (op : VeoOperation) (polls : List VeoOperation),
      countPollCalls (pollLoop op polls).1 =
        min (List.findIdx (fun p => p.done) (op :: polls)) polls.length) ∧
    (∀ (op : VeoOperation) (polls : List VeoOperation),
      allSleepsAre 10000 (pollLoop op polls).1 = true ∧
        sleepImmediatelyBeforeEachPoll (pollLoop op polls).1 = true ∧
        8000 ≤ 10000 ∧ 10000 ≤ 10000) ∧
    (∀ n : Nat,
      n < countPollCalls (pollLoop pendingOp (List.replicate (n + 1) pendingOp)).1 ∧
        (pollLoop pendingOp (List.replicate (n + 1) pendingOp)).2 = none) := by
  refine ⟨pollLoop_done, pollLoop_pending_cons, pollLoop_isSome, pollLoop_count,
    fun op polls => ⟨pollLoop_sleeps op polls, pollLoop_sleep_before_poll op polls,
      by omega, by omega⟩, ?_⟩
  intro n
  refine ⟨?_, (pollLoop_replicate (n + 1)).2⟩
  rw [(pollLoop_replicate (n + 1)).1]
  omega

theorem claim_C8_witness :
    pollLoop { done := true } [] = ([], some { done := true }) ∧
      pollLoop { done := false } [{ done := true }] =
        (Ev.sleep 10000 :: Ev.pollCall ::
          Ev.progress (str "Motion rendering in progress...") ::
            (pollLoop { done := true } []).1,
         (pollLoop { done := true } []).2) :=
  ⟨claim_C8_polling_loop.1 { done := true } [] rfl,
   claim_C8_polling_loop.2.1 { done := false } { done := true } [] rfl⟩

/-- C1: with the scripted operation-handle sequence [pending, pending,
done-with-uri-U] — the submission acknowledgment followed by two status-poll
responses, U a genuine (non-empty) uri — `generateVideoVeo` performs exactly
2 poll calls, a progress report precedes each poll, no fallback image call
occurs, and the returned artifact is the local blob reference wrapping the
bytes fetched from U with the credential appended as a query parameter. -/
theorem claim_C1_polling_resolution (key U prompt image aspect : Str)
    (fetchFn mkBlobUrl : Str → Str) (imageSvc : Except Str GenResponse)
    (env : VeoEnv)
    (henv : env = ⟨some key, Except.ok pendingOp, [pendingOp, doneOpWith U],
      fetchFn, mkBlobUrl, imageSvc, false⟩)
    (hkey : getValidApiKey (some key) = Except.ok key) (hU : U ≠ []) :
    (generateVideoVeo env prompt image aspect).1 =
        Outcome.returned (some (mkBlobUrl (fetchFn (U ++ str "&key=" ++ key)))) ∧
      countPollCalls (generateVideoVeo env prompt image aspect).2 = 2 ∧
      progressBeforeEachPoll (generateVideoVeo env prompt image aspect).2 = true ∧
      countImageGenCalls (generateVideoVeo env prompt image aspect).2 = 0 := by
  subst henv
  have hbody : veoTryBody
      ⟨some key, Except.ok pendingOp, [pendingOp, doneOpWith U], fetchFn, mkBlobUrl,
        imageSvc, false⟩ prompt image aspect =
      (Outcome.returned (some (mkBlobUrl (fetchFn (U ++ str "&key=" ++ key)))),
       [Ev.progress (str "Initializing cinematic engine..."),
        Ev.submitCall prompt (base64DataOf image) (mimeTypeOf image) aspect,
        Ev.progress (str "Generating motion sequences..."),
        Ev.sleep 10000, Ev.pollCall,
        Ev.progress (str "Motion rendering in progress..."),
        Ev.sleep 10000, Ev.pollCall,
        Ev.progress (str "Motion rendering in progress..."),
        Ev.progress (str "Finalizing cinematic download..."),
        Ev.fetchCall (U ++ str "&key=" ++ key)]) := by
    simp [veoTryBody, hkey, pollLoop, pendingOp, doneOpWith, videoUri, hU]
  refine ⟨?_, ?_, ?_, ?_⟩ <;>
    simp [generateVideoVeo, hbody, countPollCalls, progressBeforeEachPoll,
      progressSinceLastPoll, countImageGenCalls]

theorem claim_C1_witness :
    (generateVideoVeo ⟨some (str "k"), Except.ok pendingOp,
        [pendingOp, doneOpWith (str "http://v")], fun u => u, fun u => u,
        Except.error (str "unused"), false⟩ (str "p") (str "img") (str "16:9")).1 =
        Outcome.returned (some ((fun u => u) ((fun u => u)
          (str "http://v" ++ str "&key=" ++ str "k")))) ∧
      countPollCalls (generateVideoVeo ⟨some (str "k"), Except.ok pendingOp,
        [pendingOp, doneOpWith (str "http://v")], fun u => u, fun u => u,
        Except.error (str "unused"), false⟩ (str "p") (str "img") (str "16:9")).2 = 2 ∧
      progressBeforeEachPoll (generateVideoVeo ⟨some (str "k"), Except.ok pendingOp,
        [pendingOp, doneOpWith (str "http://v")], fun u => u, fun u => u,
        Except.error (str "unused"), false⟩ (str "p") (str "img") (str "16:9")).2 = true ∧
      countImageGenCalls (generateVideoVeo ⟨some (str "k"), Except.ok pendingOp,
        [pendingOp, doneOpWith (str "http://v")], fun u => u, fun u => u,
        Except.error (str "unused"), false⟩ (str "p") (str "img") (str "16:9")).2 = 0 :=
  claim_C1_polling_resolution (str "k") (str "http://v") (str "p") (str "img")
    (str "16:9") (fun u => u) (fun u => u) (Except.error (str "unused")) _ rfl (by rfl)
    (by decide)

/-- C2: when the media submission throws an error that is not the
entity-not-found session error (as a permission/billing restriction is),
`generateVideoVeo` silently performs exactly one image-synthesis call whose
prompt embeds the original prompt inside a cinematic still-frame request,
and returns that image artifact instead of raising the original error. -/
theorem claim_C2_fallback_substitution (key prompt image aspect errMsg art : Str)
    (resp : GenResponse) (fetchFn mkBlobUrl : Str → Str) (env : VeoEnv)
    (henv : env = ⟨some key, Except.error errMsg, [], fetchFn, mkBlobUrl,
      Except.ok resp, false⟩)
    (hkey : getValidApiKey (some key) = Except.ok key)
    (hnotfound : containsSub (str "Requested entity was not found.") errMsg = false)
    (hart : scanParts (responseParts resp) = some art) :
    (generateVideoVeo env prompt image aspect).1 = Outcome.returned (some art) ∧
      countImageGenCalls (generateVideoVeo env prompt image aspect).2 = 1 ∧
      (∀ q a, Ev.imageGenCall q a ∈ (generateVideoVeo env prompt image aspect).2 →
        q = str "Cinematic high-motion still frame: " ++ prompt ++
          str ". Professional cinematography.") ∧
      (∃ pre post : Str, str "Cinematic high-motion still frame: " ++ prompt ++
        str ". Professional cinematography." = pre ++ prompt ++ post) ∧
      (generateVideoVeo env prompt image aspect).1 ≠ Outcome.threw errMsg := by
  subst henv
  have hbody : veoTryBody ⟨some key, Except.error errMsg, [], fetchFn, mkBlobUrl,
      Except.ok resp, false⟩ prompt image aspect =
      (Outcome.threw errMsg,
       [Ev.progress (str "Initializing cinematic engine..."),
        Ev.submitCall prompt (base64DataOf image) (mimeTypeOf image) aspect]) := by
    simp [veoTryBody, hkey]
  refine ⟨?_, ?_, ?_, ?_, ?_⟩
  · simp [generateVideoVeo, hbody, hnotfound, generateImagePro, hkey, hart]
  · simp [generateVideoVeo, hbody, hnotfound, generateImagePro, hkey, hart,
      countImageGenCalls]
  · intro q a h
    simp [generateVideoVeo, hbody, hnotfound, generateImagePro, hkey, hart] at h
    rw [h.1]
    simp
  · exact ⟨str "Cinematic high-motion still frame: ",
      str ". Professional cinematography.", rfl⟩
  · simp [generateVideoVeo, hbody, hnotfound, generateImagePro, hkey, hart]

theorem claim_C2_witness :
    (generateVideoVeo ⟨some (str "k"),
        Except.error (str "403 PERMISSION_DENIED: billing required"), [],
        fun u => u, fun u => u, Except.ok ⟨some [⟨some ⟨some [⟨some ⟨str "QUJD"⟩,
          none⟩]⟩⟩]⟩, false⟩ (str "p") (str "img") (str "16:9")).1 =
        Outcome.returned (some (str "data:image/png;base64,QUJD")) ∧
      countImageGenCalls (generateVideoVeo ⟨some (str "k"),
        Except.error (str "403 PERMISSION_DENIED: billing required"), [],
        fun u => u, fun u => u, Except.ok ⟨some [⟨some ⟨some [⟨some ⟨str "QUJD"⟩,
          none⟩]⟩⟩]⟩, false⟩ (str "p") (str "img") (str "16:9")).2 = 1 ∧
      (∀ q a, Ev.imageGenCall q a ∈ (generateVideoVeo ⟨some (str "k"),
        Except.error (str "403 PERMISSION_DENIED: billing required"), [],
        fun u => u, fun u => u, Except.ok ⟨some [⟨some ⟨some [⟨some ⟨str "QUJD"⟩,
          none⟩]⟩⟩]⟩, false⟩ (str "p") (str "img") (str "16:9")).2 →
        q = str "Cinematic high-motion still frame: " ++ str "p" ++
          str ". Professional cinematography.") ∧
      (∃ pre post : Str, str "Cinematic high-motion still frame: " ++ str "p" ++
        str ". Professional cinematography." = pre ++ str "p" ++ post) ∧
      (generateVideoVeo ⟨some (str "k"),
        Except.error (str "403 PERMISSION_DENIED: billing required"), [],
        fun u => u, fun u => u, Except.ok ⟨some [⟨some ⟨some [⟨some ⟨str "QUJD"⟩,
          none⟩]⟩⟩]⟩, false⟩ (str "p") (str "img") (str "16:9")).1 ≠
        Outcome.threw (str "403 PERMISSION_DENIED: billing required") :=
  claim_C2_fallback_substitution (str "k") (str "p") (str "img") (str "16:9")
    (str "403 PERMISSION_DENIED: billing required")
    (str "data:image/png;base64,QUJD")
    ⟨some [⟨some ⟨some [⟨some ⟨str "QUJD"⟩, none⟩]⟩⟩]⟩ (fun u => u) (fun u => u)
    _ rfl (by rfl) (by decide) (by decide)
